import Mathlib

/-
  Verification of the docker container reconciliation module
  (src/docker-ansible.py).

  The module-level logic (the function main, lines 189-406, together with
  the helpers _human_to_bytes, _stop_containers, _wait_containers) is
  embedded shallowly below.  Pure string manipulation is translated
  directly from the Python source.  The external docker-py client is not
  part of this repository; it is modelled from the description in the specification
  of the ContainerRuntimeClient collaborator (spec section 6)
  as a deterministic state machine over a World value, with every issued
  call recorded in a trace.  Machine-level glue (argument parsing, URL
  parsing, the JSON field renaming in _inspect_container, and the
  container_summary / ansible_facts output, which no verified property
  mentions) is noted in comments where it is skipped.
-/

namespace DockerAnsible

/-- Python slice s[-k:] — the last k characters of a string, or the whole
string when k is at least the length. -/
def pyTail (s : List Char) (k : Nat) : List Char := (s.reverse.take k).reverse

/-- Python slice s[:-k] — everything but the last k characters (empty when k
is at least the length). -/
def pyInit (s : List Char) (k : Nat) : List Char := (s.reverse.drop k).reverse

/-- Python str.strip(): drop whitespace from both ends. -/
def pyStrip (s : List Char) : List Char :=
  ((s.dropWhile Char.isWhitespace).reverse.dropWhile Char.isWhitespace).reverse

/-- Decimal value of a list of digit characters. -/
def digitsVal (l : List Char) : Nat := l.foldl (fun a c => a * 10 + (c.toNat - 48)) 0

/-- Python int(str): optional surrounding whitespace, an optional sign, then
at least one decimal digit; any other string raises ValueError (none here). -/
def pyIntParse (s : List Char) : Option Int :=
  match pyStrip s with
  | [] => none
  | '+' :: rest =>
    if rest ≠ [] ∧ rest.all Char.isDigit then some ((digitsVal rest : Nat) : Int) else none
  | '-' :: rest =>
    if rest ≠ [] ∧ rest.all Char.isDigit then some (-((digitsVal rest : Nat) : Int)) else none
  | l => if l.all Char.isDigit then some ((digitsVal l : Nat) : Int) else none

/-- Input of _human_to_bytes: the module passes either an int (returned
unchanged, line 157) or a str. -/
inductive HBIn
| intVal (n : Int)
| strVal (s : List Char)
deriving DecidableEq

/-- Possible return values of _human_to_bytes: the B branch (line 160)
returns the str number[:-1]; the suffix loop (line 165) returns an int. -/
inductive HBVal
| intVal (n : Int)
| strVal (s : List Char)
deriving DecidableEq

/-- The ways _human_to_bytes terminates abnormally: the explicit
print failed=True / sys.exit(1) path for an unrecognized suffix (lines
168-169), an uncaught ValueError raised by int() on an unparseable prefix
(line 165), or an uncaught IndexError from number[-1] / number[-2] on a
too-short string (line 159). -/
inductive HBErr
| invalidFormat
| valueError
| indexError
deriving DecidableEq

/-- The suffix loop of _human_to_bytes (lines 162-166): i counts up from 1;
each two-character suffix is compared with number[-2:]; on a match
int(number[:-2]) is scaled by 1024^i. -/
def hbFind : List (List Char × Nat) → List Char → Except HBErr HBVal
| [], _ => .error .invalidFormat
| (suf, i) :: rest, s =>
  if pyTail s 2 = suf then
    match pyIntParse (pyInit s 2) with
    | some n => .ok (.intVal (n * (1024 : Int) ^ i))
    | none => .error .valueError
  else hbFind rest s

/-- The list suffixes[1:] of _human_to_bytes paired with their powers of 1024. -/
def hbSuffixes : List (List Char × Nat) :=
  [(['K','B'], 1), (['M','B'], 2), (['G','B'], 3), (['T','B'], 4), (['P','B'], 5)]

/-- The function _human_to_bytes (lines 154-169).  An int input is returned unchanged.
For a string, if number[-1] == 'B' and number[-2].isdigit() the str
number[:-1] is returned (note: a str, no int() conversion); a one-character
string equal to "B" raises IndexError at number[-2], and the empty string
raises IndexError at number[-1].  Otherwise the suffix loop runs. -/
def human_to_bytes : HBIn → Except HBErr HBVal
| .intVal n => .ok (.intVal n)
| .strVal s =>
  match s.reverse with
  | [] => .error .indexError
  | [c] => if c = 'B' then .error .indexError else hbFind hbSuffixes s
  | c1 :: c2 :: _ =>
    if c1 = 'B' then
      if c2.isDigit then .ok (.strVal (pyInit s 1)) else hbFind hbSuffixes s
    else hbFind hbSuffixes s

/-- Python s.split(sep) for a one-character separator. -/
def pySplitChar (sep : Char) : List Char → List (List Char)
| [] => [[]]
| c :: rest =>
  if c = sep then [] :: pySplitChar sep rest
  else
    match pySplitChar sep rest with
    | [] => [[c]]
    | g :: gs => (c :: g) :: gs

/-- The expression image.split(":")[0] — the name component of an image reference (the
split result is never empty, so index 0 is its head). -/
def imageName (s : List Char) : List Char := (pySplitChar ':' s).headD []

/-- One observed container, as produced by the runtime listing / inspection
(spec section 3, ObservedEntity): stable identifier, image reference,
command string and running flag.  The raw inspection payload fields that
only feed the ansible_facts output are not modelled. -/
structure Container where
  id : Nat
  image : String
  command : String
  running : Bool
deriving DecidableEq

/-- The matching test of the inspection loop (line 268):
each["Image"].split(":")[0] == image.split(":")[0] and
(not command or each["Command"].strip() == command.strip()).
A command of none or "" is falsy in Python, so the command check is
skipped for it. -/
def containerMatches (image : String) (command : Option String) (c : Container) : Bool :=
  if imageName c.image.data = imageName image.data then
    match command with
    | none => true
    | some cmd =>
      if cmd = "" then true else decide (pyStrip c.command.data = pyStrip cmd.data)
  else false

/-- One call issued to the runtime client (spec section 6). -/
inductive Op
| listOp
| inspectOp (id : Nat)
| createOp (image : String) (command : Option String)
| startOp (id : Nat) (lxc : Option (List (String × String))) (binds : Option (List (String × String)))
| stopOp (id : Nat)
| waitOp (id : Nat)
| killOp (id : Nat)
| restartOp (id : Nat)
| removeOp (id : Nat)
| pullOp (image : String)
deriving DecidableEq

/-- A trace entry: the call made and whether it completed successfully. -/
structure Entry where
  op : Op
  ok : Bool
deriving DecidableEq

/-- The state of the external container runtime, modelled from the
specification of the ContainerRuntimeClient (spec section 6), plus a failure
schedule: create succeeds iff the image is locally present; pull makes an
image locally present iff the registry offers it (and does not raise
otherwise); wait raises a ValueError for ids in waitValueErrs and a
non-ValueError failure for ids in waitFatalErrs.  Every call made is
appended to trace. -/
structure World where
  version : Option String
  containers : List Container
  localImages : List String
  registry : List String
  waitValueErrs : List Nat
  waitFatalErrs : List Nat
  nextId : Nat
  trace : List Entry
deriving DecidableEq

/-- The fatal outcomes a pass can abort with (spec section 7): the explicit
fail_json for an unsupported runtime version, and uncaught exceptions from
client calls.  waitValueError is raised by wait but caught by the
except ValueError in the reconciler. -/
inductive RErr
| versionTooOld
| createError
| waitValueError (id : Nat)
| waitFatal (id : Nat)
| inspectMissing (id : Nat)
deriving DecidableEq

/-- Outcome of a stateful step: a value or an uncaught exception, together
with the world (including the trace) as left behind. -/
inductive Res (α : Type)
| ok (a : α) (w : World)
| err (e : RErr) (w : World)
deriving DecidableEq

/-- Stateful computations over the runtime world. -/
def M (α : Type) : Type := World → Res α

def M.pure {α : Type} (a : α) : M α := fun w => .ok a w

def M.bind {α β : Type} (x : M α) (f : α → M β) : M β := fun w =>
  match x w with
  | .ok a w1 => f a w1
  | .err e w1 => .err e w1

/-- Record one client call in the trace. -/
def logE (w : World) (e : Entry) : World := { w with trace := w.trace ++ [e] }

/-- client.containers() — lists the entities known to the runtime
(spec section 6, listEntities). -/
def listContainers : M (List Container) := fun w =>
  .ok w.containers (logE w ⟨.listOp, true⟩)

/-- client.inspect_container(id) via _inspect_container (lines 182-187); the
ID/Id field renaming is pure glue and is not modelled. -/
def inspectC (id : Nat) : M Container := fun w =>
  match w.containers.find? (fun c => c.id == id) with
  | some c => .ok c (logE w ⟨.inspectOp id, true⟩)
  | none => .err (.inspectMissing id) (logE w ⟨.inspectOp id, true⟩)

/-- client.create_container(**params) — creates a not-yet-running container
from the image and command of the spec; fails when the image is not locally
present.  The remaining params (ports, volumes_from, mem_limit, env, dns,
hostname, detach, privileged) are passed through to the runtime and are not
observable in any verified property, so they are not carried on the op. -/
def createC (image : String) (command : Option String) : M Container := fun w =>
  if image ∈ w.localImages then
    let c : Container := ⟨w.nextId, image, command.getD "", false⟩
    .ok c { logE w ⟨.createOp image command, true⟩ with
              containers := w.containers ++ [c], nextId := w.nextId + 1 }
  else
    .err .createError (logE w ⟨.createOp image command, false⟩)

/-- Set the running flag of the container with the given id. -/
def setRunning (id : Nat) (b : Bool) (cs : List Container) : List Container :=
  cs.map (fun c => if c.id == id then { c with running := b } else c)

/-- client.start(id, lxc_conf=..., binds=...) (line 306). -/
def startC (id : Nat) (lxc binds : Option (List (String × String))) : M Unit := fun w =>
  .ok () { logE w ⟨.startOp id lxc binds, true⟩ with containers := setRunning id true w.containers }

/-- client.stop(id). -/
def stopC (id : Nat) : M Unit := fun w =>
  .ok () { logE w ⟨.stopOp id, true⟩ with containers := setRunning id false w.containers }

/-- client.kill(id). -/
def killC (id : Nat) : M Unit := fun w =>
  .ok () { logE w ⟨.killOp id, true⟩ with containers := setRunning id false w.containers }

/-- client.restart(id). -/
def restartC (id : Nat) : M Unit := fun w =>
  .ok () { logE w ⟨.restartOp id, true⟩ with containers := setRunning id true w.containers }

/-- client.remove_container(id). -/
def removeC (id : Nat) : M Unit := fun w =>
  .ok () { logE w ⟨.removeOp id, true⟩ with containers := w.containers.filter (fun c => !(c.id == id)) }

/-- client.pull(image) — makes the image locally available when the registry
offers it; old docker-py does not raise on a missing image. -/
def pullC (image : String) : M Unit := fun w =>
  if image ∈ w.registry then
    .ok () { logE w ⟨.pullOp image, true⟩ with localImages := image :: w.localImages }
  else
    .ok () (logE w ⟨.pullOp image, true⟩)

/-- client.wait(id) — blocks until exit; raises ValueError for the ids
scheduled in waitValueErrs (the malformed exit-code payload case) and a
different, fatal exception for ids in waitFatalErrs. -/
def waitC (id : Nat) : M Unit := fun w =>
  if id ∈ w.waitValueErrs then .err (.waitValueError id) (logE w ⟨.waitOp id, false⟩)
  else if id ∈ w.waitFatalErrs then .err (.waitFatal id) (logE w ⟨.waitOp id, false⟩)
  else .ok () (logE w ⟨.waitOp id, true⟩)

/-- The function _stop_containers (lines 174-176): stop each container in order. -/
def stop_containers : List Container → M Unit
| [] => M.pure ()
| c :: rest => M.bind (stopC c.id) (fun _ => stop_containers rest)

/-- The function _wait_containers (lines 178-180): wait on each container in order; an
exception raised mid-loop aborts the remainder of the loop. -/
def wait_containers : List Container → M Unit
| [] => M.pure ()
| c :: rest => M.bind (waitC c.id) (fun _ => wait_containers rest)

/-- The statement try _wait_containers except ValueError pass — only a ValueError
is swallowed; any other exception keeps propagating. -/
def waitTolerating (cs : List Container) : M Unit := fun w =>
  match wait_containers cs w with
  | .err (.waitValueError _) w1 => .ok () w1
  | r => r

/-- The comprehension inspecting each container of a list in order. -/
def inspectAll : List Container → M (List Container)
| [] => M.pure []
| c :: rest =>
  M.bind (inspectC c.id) (fun d =>
  M.bind (inspectAll rest) (fun ds => M.pure (d :: ds)))

/-- The loop starting each container with lxc_conf and binds (line 306). -/
def startAll (lxc binds : Option (List (String × String))) : List Container → M Unit
| [] => M.pure ()
| c :: rest => M.bind (startC c.id lxc binds) (fun _ => startAll lxc binds rest)

/-- The loop removing each container of the details list. -/
def removeAll : List Container → M Unit
| [] => M.pure ()
| c :: rest => M.bind (removeC c.id) (fun _ => removeAll rest)

/-- The loop killing every matching container (lines 371-372). -/
def killAll : List Container → M Unit
| [] => M.pure ()
| c :: rest => M.bind (killC c.id) (fun _ => killAll rest)

/-- The loop restarting every matching container (lines 392-393). -/
def restartAll : List Container → M Unit
| [] => M.pure ()
| c :: rest => M.bind (restartC c.id) (fun _ => restartAll rest)

/-- The comprehension creating n containers (line 298) — left to right;
a failure aborts the comprehension (already-created containers persist in
the runtime but the partial list is discarded). -/
def createMany (image : String) (command : Option String) : Nat → M (List Container)
| 0 => M.pure []
| n + 1 =>
  M.bind (createC image command) (fun c =>
  M.bind (createMany image command n) (fun cs => M.pure (c :: cs)))

/-- The inspection loop (lines 267-271): for each listed container that
matches, fetch details and collect them (running_count is maintained as the
length of the collected list). -/
def matchLoop (image : String) (command : Option String) : List Container → M (List Container)
| [] => M.pure []
| c :: rest =>
  if containerMatches image command c then
    M.bind (inspectC c.id) (fun d =>
    M.bind (matchLoop image command rest) (fun ds => M.pure (d :: ds)))
  else matchLoop image command rest

/-- The five desired lifecycle states (choices of the state parameter). -/
inductive DState
| present
| absent
| stop
| kill
| restart
deriving DecidableEq

/-- The desired-state request, after argument parsing (spec section 3,
DesiredSpec).  Fields that only pass through to create_container are not
carried (see createC). -/
structure Spec where
  count : Int
  image : String
  command : Option String
  binds : Option (List (String × String))
  lxc_conf : Option (List (String × String))
  state : DState
deriving DecidableEq

/-- The four operation counters of the pass. -/
structure Counts where
  started : Nat
  stopped : Nat
  killed : Nat
  restarted : Nat
deriving DecidableEq

/-- Python slice l[0:d] for an int d: first d elements when d is
nonnegative, all but the last -d elements when d is negative. -/
def pySlice0 (l : List Container) (d : Int) : List Container :=
  if 0 ≤ d then l.take d.toNat else l.take (l.length - (-d).toNat)

/-- Number of inspected details with State.Running true. -/
def countRunning (ds : List Container) : Nat := (ds.filter (fun c => c.running)).length

/-- Number of inspected details with State.Running false. -/
def countStopped (ds : List Container) : Nat := (ds.filter (fun c => !c.running)).length

/-- Lines 296-303: try the batch create; on any exception pull the image
once and run the batch create again (a second failure propagates).  changed
is True on both paths. -/
def presentUp (s : Spec) (n : Nat) : M (List Container × Bool) := fun w =>
  match createMany s.image s.command n w with
  | .ok cs w1 => .ok (cs, true) w1
  | .err _ w1 =>
    (M.bind (pullC s.image) (fun _ =>
     M.bind (createMany s.image s.command n) (fun cs => M.pure (cs, true)))) w1

/-- The state == "present" branch (lines 281-332).  delta > 0: create and
start delta containers, then count the started ones from fresh inspection.
delta < 0: stop the first abs(delta) matching containers, wait (tolerating
ValueError), inspect them, count the stopped ones, then remove them.
delta == 0: nothing happens and changed stays False.  The
running_containers bookkeeping that only feeds container_summary (lines
309, 326, 332) is not modelled. -/
def presentBranch (s : Spec) (delta : Int) (rcs : List Container) : M (Counts × Bool) :=
  if 0 < delta then
    M.bind (presentUp s delta.toNat) (fun p =>
    M.bind (startAll s.lxc_conf s.binds p.1) (fun _ =>
    M.bind (inspectAll p.1) (fun details =>
    M.pure (⟨countRunning details, 0, 0, 0⟩, p.2))))
  else if delta < 0 then
    M.bind (stop_containers (rcs.take (-delta).toNat)) (fun _ =>
    M.bind (waitTolerating (rcs.take (-delta).toNat)) (fun _ =>
    M.bind (inspectAll (rcs.take (-delta).toNat)) (fun details =>
    M.bind (removeAll details) (fun _ =>
    M.pure (⟨0, countStopped details, 0, 0⟩, true)))))
  else M.pure (⟨0, 0, 0, 0⟩, false)

/-- The state == "absent" branch (lines 335-351): stop all matching
containers, wait (tolerating ValueError), then inspect and remove only
running_containers[0:delta] — the slice uses the delta left over from the
present arithmetic. -/
def absentBranch (delta : Int) (rcs : List Container) : M (Counts × Bool) :=
  M.bind (stop_containers rcs) (fun _ =>
  M.bind (waitTolerating rcs) (fun _ =>
  M.bind (inspectAll (pySlice0 rcs delta)) (fun details =>
  M.bind (removeAll details) (fun _ =>
  M.pure (⟨0, countStopped details, 0, 0⟩, true)))))

/-- The state == "stop" branch (lines 354-367). -/
def stopBranch (delta : Int) (rcs : List Container) : M (Counts × Bool) :=
  M.bind (stop_containers rcs) (fun _ =>
  M.bind (waitTolerating rcs) (fun _ =>
  M.bind (inspectAll (pySlice0 rcs delta)) (fun details =>
  M.pure (⟨0, countStopped details, 0, 0⟩, true))))

/-- The state == "kill" branch (lines 370-388). -/
def killBranch (delta : Int) (rcs : List Container) : M (Counts × Bool) :=
  M.bind (killAll rcs) (fun _ =>
  M.bind (waitTolerating rcs) (fun _ =>
  M.bind (inspectAll (pySlice0 rcs delta)) (fun details =>
  M.bind (removeAll details) (fun _ =>
  M.pure (⟨0, 0, countStopped details, 0⟩, true)))))

/-- The state == "restart" branch (lines 391-401). -/
def restartBranch (delta : Int) (rcs : List Container) : M (Counts × Bool) :=
  M.bind (restartAll rcs) (fun _ =>
  M.bind (inspectAll (pySlice0 rcs delta)) (fun details =>
  M.pure (⟨0, 0, 0, countRunning details⟩, true)))

/-- Lines 262-264: client.info(); fail when a Version field is present and
lexicographically below "0.3.3".  The info() read itself is glue and is not
recorded in the trace. -/
def versionCheck : M Unit := fun w =>
  match w.version with
  | some v => if v < "0.3.3" then .err .versionTooOld w else .ok () w
  | none => .ok () w

/-- Branch dispatch on the desired state (the if/elif chain of main). -/
def branchFor (s : Spec) (delta : Int) (rcs : List Container) : M (Counts × Bool) :=
  match s.state with
  | .present => presentBranch s delta rcs
  | .absent => absentBranch delta rcs
  | .stop => stopBranch delta rcs
  | .kill => killBranch delta rcs
  | .restart => restartBranch delta rcs

/-- The structured success output of exit_json (line 406); the
ansible_facts entity list is not modelled (see presentBranch). -/
structure Report where
  failed : Bool
  changed : Bool
  started : Nat
  stopped : Nat
  killed : Nat
  restarted : Nat
  msg : String
deriving DecidableEq

/-- Python "%s" rendering of the command parameter (None prints as None). -/
def pyShowCommand : Option String → String
| none => "None"
| some c => c

/-- The summary message of line 403. -/
def mkMsg (s : Spec) (c : Counts) : String :=
  "Started " ++ toString c.started ++ ", stopped " ++ toString c.stopped ++
  ", killed " ++ toString c.killed ++ ", restarted " ++ toString c.restarted ++
  " container(s) running image " ++ s.image ++ " with command " ++ pyShowCommand s.command

/-- Assemble the exit_json payload; failed is the variable initialized at
line 251 and never reassigned on the way to line 406. -/
def mkReport (s : Spec) (out : Counts × Bool) : Report :=
  { failed := false, changed := out.2, started := out.1.started, stopped := out.1.stopped,
    killed := out.1.killed, restarted := out.1.restarted, msg := mkMsg s out.1 }

/-- One reconciliation pass: the body of main from the version check to
exit_json (lines 262-406).  delta = count - running_count is computed once
(line 273) and handed to every branch. -/
def reconcile (s : Spec) : M Report :=
  M.bind versionCheck (fun _ =>
  M.bind listContainers (fun listed =>
  M.bind (matchLoop s.image s.command listed) (fun rcs =>
  M.bind (branchFor s (s.count - (rcs.length : Int)) rcs) (fun out =>
  M.pure (mkReport s out)))))

/-- The world a computation leaves behind, whether it succeeded or not. -/
def Res.world {α : Type} : Res α → World
| .ok _ w => w
| .err _ w => w

/-- The report of a successful pass, none on an aborted pass. -/
def reportOf : Res Report → Option Report
| .ok r _ => some r
| .err _ _ => none

/-- The uncaught exception of an aborted pass. -/
def errOf {α : Type} : Res α → Option RErr
| .ok _ _ => none
| .err e _ => some e

/-- A trace entry records an actually issued (successfully executed)
create, start, stop, kill, restart or remove operation. -/
def Entry.isMutIssued (e : Entry) : Bool :=
  e.ok && (match e.op with
    | .createOp _ _ => true
    | .startOp _ _ _ => true
    | .stopOp _ => true
    | .killOp _ => true
    | .restartOp _ => true
    | .removeOp _ => true
    | _ => false)

/-- Number of actually issued lifecycle mutations in a trace. -/
def mutCount (t : List Entry) : Nat := t.countP Entry.isMutIssued

/-- Number of trace entries whose op satisfies p (issued or attempted). -/
def countOp (p : Op → Bool) (t : List Entry) : Nat := t.countP (fun e => p e.op)

/-- The wait entries _wait_containers leaves for an error-free run. -/
def waitEntriesOk (cs : List Container) : List Entry := cs.map (fun c => ⟨.waitOp c.id, true⟩)

/-- The name component of an image reference as the specification words it:
everything before the first colon. -/
def specNameComponent (s : List Char) : List Char := s.takeWhile (fun c => !(c == ':'))

/-- Whether the last two characters form one of the recognized multi-byte
suffixes KB, MB, GB, TB, PB. -/
def hasSuffix2 (s : List Char) : Prop :=
  pyTail s 2 ∈ [['K','B'], ['M','B'], ['G','B'], ['T','B'], ['P','B']]

instance (s : List Char) : Decidable (hasSuffix2 s) := by unfold hasSuffix2; infer_instance

/-- Whether the last character is the B suffix. -/
def hasSuffixB (s : List Char) : Prop := pyTail s 1 = ['B']

instance (s : List Char) : Decidable (hasSuffixB s) := by unfold hasSuffixB; infer_instance

/-- Whether the character right before the final position is a digit
(number[-2].isdigit()). -/
def digitBeforeB (s : List Char) : Prop :=
  match s.reverse with
  | _ :: c2 :: _ => c2.isDigit = true
  | _ => False

instance (s : List Char) : Decidable (digitBeforeB s) := by
  unfold digitBeforeB
  rcases s.reverse with _ | ⟨_, _ | _⟩ <;> simp <;> infer_instance

/-- The precondition of the invalid-size claim, exactly as stated: the
suffix (the longest match among B, KB, MB, GB, TB, PB) is unrecognized, or
the numeric prefix before the recognized suffix is not parseable as an
integer. -/
def invalidSizeClaim (s : List Char) : Prop :=
  (¬ hasSuffix2 s ∧ ¬ hasSuffixB s) ∨
  (hasSuffix2 s ∧ pyIntParse (pyInit s 2) = none) ∨
  (¬ hasSuffix2 s ∧ hasSuffixB s ∧ pyIntParse (pyInit s 1) = none)

instance (s : List Char) : Decidable (invalidSizeClaim s) := by
  unfold invalidSizeClaim; infer_instance

/- Concrete reconciliation scenarios used by the claim theorems and their
witnesses.  Worlds list the runtime version, containers, locally present
images, registry contents, wait failure schedules, the next fresh id and an
(initially empty) trace. -/

/-- A runtime with a single running container matching image img. -/
def wAbsentOne : World := ⟨none, [⟨1, "img", "", true⟩], [], [], [], [], 2, []⟩

/-- state=absent, count defaulting to 1, image img. -/
def sAbsent : Spec := ⟨1, "img", none, none, none, .absent⟩

/-- The report of reconciling sAbsent against wAbsentOne. -/
def rAbsentOne : Report :=
  ⟨false, true, 0, 0, 0, 0,
   "Started 0, stopped 0, killed 0, restarted 0 container(s) running image img with command None"⟩

/-- The world reconciling sAbsent against wAbsentOne leaves behind: the
container was stopped but never removed. -/
def wAbsentOneAfter : World :=
  ⟨none, [⟨1, "img", "", false⟩], [], [], [], [], 2,
   [⟨.listOp, true⟩, ⟨.inspectOp 1, true⟩, ⟨.stopOp 1, true⟩, ⟨.waitOp 1, true⟩]⟩

/-- A runtime with no containers at all. -/
def wAbsentNone : World := ⟨none, [], [], [], [], [], 1, []⟩

/-- state=present, count=2 against five matching running containers. -/
def wScale5 : World :=
  ⟨none,
   [⟨1, "img:v1", "", true⟩, ⟨2, "img:v1", "", true⟩, ⟨3, "img:v1", "", true⟩,
    ⟨4, "img:v1", "", true⟩, ⟨5, "img:v1", "", true⟩],
   [], [], [], [], 6, []⟩

def sScale2 : Spec := ⟨2, "img:v2", none, none, none, .present⟩

def rScale2 : Report :=
  ⟨false, true, 0, 3, 0, 0,
   "Started 0, stopped 3, killed 0, restarted 0 container(s) running image img:v2 with command None"⟩

/-- state=present, count=3, a spec carrying bind and LXC options, against an
empty runtime that has the image locally. -/
def wCreate3 : World := ⟨none, [], ["img"], [], [], [], 0, []⟩

def sCreate3 : Spec :=
  ⟨3, "img", some ("run.sh"), some [("/h", "/c")], some [("lxc.aa_profile", "unconfined")], .present⟩

def rCreate3 : Report :=
  ⟨false, true, 3, 0, 0, 0,
   "Started 3, stopped 0, killed 0, restarted 0 container(s) running image img with command run.sh"⟩

/-- Image missing locally but present in the registry: the first create
fails, the pull fixes it, the retried create succeeds. -/
def wRetryOk : World := ⟨none, [], [], ["img"], [], [], 0, []⟩

/-- Image missing locally and absent from the registry: the retried create
fails again. -/
def wRetryFail : World := ⟨none, [], [], [], [], [], 0, []⟩

def sRetry : Spec := ⟨1, "img", none, none, none, .present⟩

def rRetryOk : Report :=
  ⟨false, true, 1, 0, 0, 0,
   "Started 1, stopped 0, killed 0, restarted 0 container(s) running image img with command None"⟩

/-- Two matching running containers; waiting on the first raises ValueError. -/
def wWaitSkip : World :=
  ⟨none, [⟨1, "img", "", true⟩, ⟨2, "img", "", true⟩], [], [], [1], [], 3, []⟩

def sStopTwo : Spec := ⟨1, "img", none, none, none, .stop⟩

def rWaitSkip : Report :=
  ⟨false, true, 0, 1, 0, 0,
   "Started 0, stopped 1, killed 0, restarted 0 container(s) running image img with command None"⟩

/-- A trivial pass: state=present, count=0 against an empty runtime. -/
def wTrivial : World := ⟨none, [], [], [], [], [], 0, []⟩

def sTrivial : Spec := ⟨0, "img", none, none, none, .present⟩

def rTrivial : Report :=
  ⟨false, false, 0, 0, 0, 0,
   "Started 0, stopped 0, killed 0, restarted 0 container(s) running image img with command None"⟩

def wTrivialAfter : World := ⟨none, [], [], [], [], [], 0, [⟨.listOp, true⟩]⟩

theorem M.bind_eq_ok {α β : Type} {x : M α} {f : α → M β} {w : World} {b : β} {w2 : World}
    (h : M.bind x f w = .ok b w2) :
    ∃ a w1, x w = .ok a w1 ∧ f a w1 = .ok b w2 := by
  unfold M.bind at h
  cases hx : x w with
  | ok a w1 => rw [hx] at h; exact ⟨a, w1, rfl, h⟩
  | err e w1 => rw [hx] at h; exact absurd h (by simp)

theorem M.pure_eq_ok {α : Type} {a : α} {w : World} {b : α} {w2 : World}
    (h : M.pure a w = .ok b w2) : b = a ∧ w2 = w := by
  unfold M.pure at h
  rw [Res.ok.injEq] at h
  exact ⟨h.1.symm, h.2.symm⟩

theorem versionCheck_eq_ok {w : World} {a : Unit} {w1 : World}
    (h : versionCheck w = .ok a w1) : w1 = w := by
  unfold versionCheck at h
  split at h
  · split at h
    · exact absurd h (by simp)
    · rw [Res.ok.injEq] at h; exact h.2.symm
  · rw [Res.ok.injEq] at h; exact h.2.symm

/-- Claim C10: every pass that reaches the success report reports
failed=false — the flag is initialized false (line 251) and no path to
exit_json (line 406) reassigns it; failures abort before a report exists. -/
theorem success_report_not_failed (s : Spec) (w : World) (r : Report) (w2 : World)
    (h : reconcile s w = .ok r w2) : r.failed = false := by
  unfold reconcile at h
  obtain ⟨_, w1, _, h⟩ := M.bind_eq_ok h
  obtain ⟨listed, wa, _, h⟩ := M.bind_eq_ok h
  obtain ⟨rcs, wb, _, h⟩ := M.bind_eq_ok h
  obtain ⟨out, wc, _, h⟩ := M.bind_eq_ok h
  obtain ⟨hr, _⟩ := M.pure_eq_ok h
  rw [hr]
  rfl

/-- Witness for claim C10 at a concrete input. -/
theorem success_report_not_failed_witness : rTrivial.failed = false :=
  success_report_not_failed sTrivial wTrivial rTrivial wTrivialAfter rfl

theorem mutCount_snoc (t : List Entry) (e : Entry) :
    mutCount (t ++ [e]) = mutCount t + mutCount [e] := by
  simp [mutCount, List.countP_append]

theorem mutCount_logE (w : World) (e : Entry) :
    mutCount (logE w e).trace = mutCount w.trace + mutCount [e] := by
  simp [logE, mutCount, List.countP_append]

theorem M.bind_pure_world {α β : Type} (x : M α) (g : α → β) (w : World) :
    ((M.bind x (fun a => M.pure (g a))) w).world = (x w).world := by
  unfold M.bind M.pure
  cases h : x w <;> simp [Res.world]

theorem stop_containers_cons (c : Container) (rest : List Container) (w : World) :
    stop_containers (c :: rest) w =
      stop_containers rest
        { logE w ⟨.stopOp c.id, true⟩ with containers := setRunning c.id false w.containers } := rfl

theorem stop_containers_mut (cs : List Container) : ∀ w : World,
    mutCount ((stop_containers cs w).world).trace = mutCount w.trace + cs.length := by
  induction cs with
  | nil => intro w; simp [stop_containers, M.pure, Res.world]
  | cons c rest ih =>
    intro w
    rw [stop_containers_cons, ih]
    have : mutCount [(⟨.stopOp c.id, true⟩ : Entry)] = 1 := rfl
    simp [mutCount_logE, this]
    omega

theorem startAll_cons (lxc binds : Option (List (String × String)))
    (c : Container) (rest : List Container) (w : World) :
    startAll lxc binds (c :: rest) w =
      startAll lxc binds rest
        { logE w ⟨.startOp c.id lxc binds, true⟩ with
            containers := setRunning c.id true w.containers } := rfl

theorem startAll_mut (lxc binds : Option (List (String × String))) (cs : List Container) :
    ∀ w : World,
    mutCount ((startAll lxc binds cs w).world).trace = mutCount w.trace + cs.length := by
  induction cs with
  | nil => intro w; simp [startAll, M.pure, Res.world]
  | cons c rest ih =>
    intro w
    rw [startAll_cons, ih]
    have : mutCount [(⟨.startOp c.id lxc binds, true⟩ : Entry)] = 1 := rfl
    simp [mutCount_logE, this]
    omega

theorem removeAll_cons (c : Container) (rest : List Container) (w : World) :
    removeAll (c :: rest) w =
      removeAll rest
        { logE w ⟨.removeOp c.id, true⟩ with
            containers := w.containers.filter (fun x => !(x.id == c.id)) } := rfl

theorem removeAll_mut (cs : List Container) : ∀ w : World,
    mutCount ((removeAll cs w).world).trace = mutCount w.trace + cs.length := by
  induction cs with
  | nil => intro w; simp [removeAll, M.pure, Res.world]
  | cons c rest ih =>
    intro w
    rw [removeAll_cons, ih]
    have : mutCount [(⟨.removeOp c.id, true⟩ : Entry)] = 1 := rfl
    simp [mutCount_logE, this]
    omega

theorem wait_containers_cons (c : Container) (rest : List Container) (w : World) :
    wait_containers (c :: rest) w =
      if c.id ∈ w.waitValueErrs then .err (.waitValueError c.id) (logE w ⟨.waitOp c.id, false⟩)
      else if c.id ∈ w.waitFatalErrs then .err (.waitFatal c.id) (logE w ⟨.waitOp c.id, false⟩)
      else wait_containers rest (logE w ⟨.waitOp c.id, true⟩) := by
  by_cases h1 : c.id ∈ w.waitValueErrs
  · simp [wait_containers, M.bind, waitC, h1]
  · by_cases h2 : c.id ∈ w.waitFatalErrs
    · simp [wait_containers, M.bind, waitC, h1, h2]
    · simp [wait_containers, M.bind, waitC, h1, h2]

theorem wait_containers_mut (cs : List Container) : ∀ w : World,
    mutCount ((wait_containers cs w).world).trace = mutCount w.trace := by
  induction cs with
  | nil => intro w; simp [wait_containers, M.pure, Res.world]
  | cons c rest ih =>
    intro w
    rw [wait_containers_cons]
    have hfe : mutCount [(⟨.waitOp c.id, false⟩ : Entry)] = 0 := rfl
    have hte : mutCount [(⟨.waitOp c.id, true⟩ : Entry)] = 0 := rfl
    by_cases h1 : c.id ∈ w.waitValueErrs
    · simp [h1, Res.world, mutCount_logE, hfe]
    · by_cases h2 : c.id ∈ w.waitFatalErrs
      · simp [h1, h2, Res.world, mutCount_logE, hfe]
      · simp [h1, h2, ih, mutCount_logE, hte]

theorem waitTolerating_mut (cs : List Container) (w : World) :
    mutCount ((waitTolerating cs w).world).trace = mutCount w.trace := by
  have hw := wait_containers_mut cs w
  unfold waitTolerating
  rcases h : wait_containers cs w with ⟨a, w1⟩ | ⟨e, w1⟩
  · rw [h] at hw; simpa [Res.world] using hw
  · rw [h] at hw
    cases e <;> simpa [Res.world] using hw

theorem inspectAll_cons (c : Container) (rest : List Container) (w : World) :
    inspectAll (c :: rest) w =
      match w.containers.find? (fun x => x.id == c.id) with
      | some d =>
        (M.bind (inspectAll rest) (fun ds => M.pure (d :: ds))) (logE w ⟨.inspectOp c.id, true⟩)
      | none => .err (.inspectMissing c.id) (logE w ⟨.inspectOp c.id, true⟩) := by
  cases hf : w.containers.find? (fun x => x.id == c.id) <;>
    simp [inspectAll, M.bind, inspectC, hf]

theorem inspectAll_mut (cs : List Container) : ∀ w : World,
    mutCount ((inspectAll cs w).world).trace = mutCount w.trace := by
  induction cs with
  | nil => intro w; simp [inspectAll, M.pure, Res.world]
  | cons c rest ih =>
    intro w
    rw [inspectAll_cons]
    have hie : mutCount [(⟨.inspectOp c.id, true⟩ : Entry)] = 0 := rfl
    cases hf : w.containers.find? (fun x => x.id == c.id) with
    | none => simp [Res.world, mutCount_logE, hie]
    | some d =>
      simp only []
      rw [M.bind_pure_world]
      rw [ih]
      simp [mutCount_logE, hie]

theorem matchLoop_cons_true (image : String) (command : Option String)
    (c : Container) (rest : List Container) (w : World)
    (hm : containerMatches image command c = true) :
    matchLoop image command (c :: rest) w =
      match w.containers.find? (fun x => x.id == c.id) with
      | some d =>
        (M.bind (matchLoop image command rest) (fun ds => M.pure (d :: ds)))
          (logE w ⟨.inspectOp c.id, true⟩)
      | none => .err (.inspectMissing c.id) (logE w ⟨.inspectOp c.id, true⟩) := by
  cases hf : w.containers.find? (fun x => x.id == c.id) <;>
    simp [matchLoop, M.bind, inspectC, hm, hf]

theorem matchLoop_cons_false (image : String) (command : Option String)
    (c : Container) (rest : List Container) (w : World)
    (hm : containerMatches image command c = false) :
    matchLoop image command (c :: rest) w = matchLoop image command rest w := by
  simp [matchLoop, hm]

theorem matchLoop_mut (image : String) (command : Option String) (cs : List Container) :
    ∀ w : World,
    mutCount ((matchLoop image command cs w).world).trace = mutCount w.trace := by
  induction cs with
  | nil => intro w; simp [matchLoop, M.pure, Res.world]
  | cons c rest ih =>
    intro w
    have hie : mutCount [(⟨.inspectOp c.id, true⟩ : Entry)] = 0 := rfl
    by_cases hm : containerMatches image command c
    · rw [matchLoop_cons_true image command c rest w hm]
      cases hf : w.containers.find? (fun x => x.id == c.id) with
      | none => simp [Res.world, mutCount_logE, hie]
      | some d =>
        simp only []
        rw [M.bind_pure_world]
        rw [ih]
        simp [mutCount_logE, hie]
    · rw [matchLoop_cons_false image command c rest w (by simpa using hm)]
      exact ih w

theorem pullC_mut (image : String) (w : World) :
    mutCount ((pullC image w).world).trace = mutCount w.trace := by
  have hpe : mutCount [(⟨.pullOp image, true⟩ : Entry)] = 0 := rfl
  unfold pullC
  by_cases hm : image ∈ w.registry <;> simp [hm, Res.world, mutCount_logE, hpe]

theorem createMany_succ (image : String) (command : Option String) (n : Nat) (w : World) :
    createMany image command (n + 1) w =
      if image ∈ w.localImages then
        (M.bind (createMany image command n)
          (fun cs => M.pure ((⟨w.nextId, image, command.getD "", false⟩ : Container) :: cs)))
          { logE w ⟨.createOp image command, true⟩ with
              containers := w.containers ++ [⟨w.nextId, image, command.getD "", false⟩],
              nextId := w.nextId + 1 }
      else .err .createError (logE w ⟨.createOp image command, false⟩) := by
  by_cases hm : image ∈ w.localImages <;> simp [createMany, M.bind, createC, hm]

theorem createMany_mut_ge (image : String) (command : Option String) (n : Nat) :
    ∀ w : World,
    mutCount w.trace ≤ mutCount ((createMany image command n w).world).trace := by
  induction n with
  | zero => intro w; simp [createMany, M.pure, Res.world]
  | succ n ih =>
    intro w
    rw [createMany_succ]
    have hce : mutCount [(⟨.createOp image command, true⟩ : Entry)] = 1 := rfl
    have hcf : mutCount [(⟨.createOp image command, false⟩ : Entry)] = 0 := rfl
    by_cases hm : image ∈ w.localImages
    · rw [if_pos hm]
      rw [M.bind_pure_world]
      refine le_trans ?_ (ih _)
      simp [mutCount_logE, hce]
    · rw [if_neg hm]
      simp [Res.world, mutCount_logE, hcf]

theorem createMany_ok_length (image : String) (command : Option String) (n : Nat) :
    ∀ {w : World} {cs : List Container} {w1 : World},
    createMany image command n w = .ok cs w1 → cs.length = n := by
  induction n with
  | zero =>
    intro w cs w1 h
    obtain ⟨hcs, _⟩ := M.pure_eq_ok h
    rw [hcs]
    rfl
  | succ n ih =>
    intro w cs w1 h
    rw [createMany_succ] at h
    by_cases hm : image ∈ w.localImages
    · rw [if_pos hm] at h
      obtain ⟨cs2, w2, hc2, h⟩ := M.bind_eq_ok h
      obtain ⟨hcs, _⟩ := M.pure_eq_ok h
      rw [hcs]
      simp [ih hc2]
    · rw [if_neg hm] at h
      exact absurd h (by simp)

theorem presentUp_ok {s : Spec} {n : Nat} {w : World} {cs : List Container} {b : Bool} {w1 : World}
    (h : presentUp s n w = .ok (cs, b) w1) :
    b = true ∧ cs.length = n ∧ mutCount w.trace ≤ mutCount w1.trace := by
  unfold presentUp at h
  rcases hcm : createMany s.image s.command n w with ⟨cs0, w0⟩ | ⟨e, w0⟩
  · simp only [hcm] at h
    rw [Res.ok.injEq] at h
    obtain ⟨hpair, hw⟩ := h
    rw [Prod.mk.injEq] at hpair
    refine ⟨hpair.2.symm, ?_, ?_⟩
    · rw [← hpair.1]; exact createMany_ok_length s.image s.command n hcm
    · have h1 := createMany_mut_ge s.image s.command n w
      rw [hcm] at h1
      rw [← hw]
      simpa [Res.world] using h1
  · simp only [hcm] at h
    obtain ⟨_, wp, hp, h⟩ := M.bind_eq_ok h
    obtain ⟨cs2, wq, hc2, h⟩ := M.bind_eq_ok h
    obtain ⟨hpair, hw⟩ := M.pure_eq_ok h
    rw [Prod.mk.injEq] at hpair
    refine ⟨hpair.2, ?_, ?_⟩
    · rw [hpair.1]; exact createMany_ok_length s.image s.command n hc2
    · have h1 := createMany_mut_ge s.image s.command n w
      rw [hcm] at h1
      have h2 := pullC_mut s.image w0
      rw [hp] at h2
      have h3 := createMany_mut_ge s.image s.command n wp
      rw [hc2] at h3
      simp [Res.world] at h1 h2 h3
      rw [hw]
      omega

theorem presentBranch_ok {s : Spec} {delta : Int} {rcs : List Container} {w : World}
    {cnt : Counts} {chg : Bool} {w1 : World}
    (hne : delta < 0 → rcs ≠ [])
    (h : presentBranch s delta rcs w = .ok (cnt, chg) w1) :
    (chg = true ∧ mutCount w.trace < mutCount w1.trace) ∨
    (chg = false ∧ mutCount w1.trace = mutCount w.trace) := by
  unfold presentBranch at h
  split_ifs at h with hd1 hd2
  · -- delta > 0: create + start
    obtain ⟨p, wa, hp, h⟩ := M.bind_eq_ok h
    obtain ⟨_, wb, hs, h⟩ := M.bind_eq_ok h
    obtain ⟨details, wc, hi, h⟩ := M.bind_eq_ok h
    obtain ⟨hpair, hw⟩ := M.pure_eq_ok h
    obtain ⟨cs, b⟩ := p
    obtain ⟨hb, hlen, hm1⟩ := presentUp_ok hp
    rw [Prod.mk.injEq] at hpair
    left
    constructor
    · rw [hpair.2, hb]
    · have h2 := startAll_mut s.lxc_conf s.binds cs wa
      rw [hs] at h2
      have h3 := inspectAll_mut cs wb
      rw [hi] at h3
      simp only [Res.world] at h2 h3
      have hlen1 : 1 ≤ cs.length := by rw [hlen]; omega
      rw [hw]
      omega
  · -- delta < 0: stop + wait + inspect + remove
    obtain ⟨_, wa, hst, h⟩ := M.bind_eq_ok h
    obtain ⟨_, wb, hwt, h⟩ := M.bind_eq_ok h
    obtain ⟨details, wc, hi, h⟩ := M.bind_eq_ok h
    obtain ⟨_, wd, hrm, h⟩ := M.bind_eq_ok h
    obtain ⟨hpair, hw⟩ := M.pure_eq_ok h
    rw [Prod.mk.injEq] at hpair
    left
    constructor
    · exact hpair.2
    · have h1 := stop_containers_mut (rcs.take (-delta).toNat) w
      rw [hst] at h1
      have h2 := waitTolerating_mut (rcs.take (-delta).toNat) wa
      rw [hwt] at h2
      have h3 := inspectAll_mut (rcs.take (-delta).toNat) wb
      rw [hi] at h3
      have h4 := removeAll_mut details wc
      rw [hrm] at h4
      simp only [Res.world] at h1 h2 h3 h4
      have hnil := hne hd2
      have hlen : 1 ≤ (rcs.take (-delta).toNat).length := by
        rw [List.length_take]
        have hrlen : 1 ≤ rcs.length := List.length_pos.mpr hnil
        omega
      rw [hw]
      omega
  · -- delta == 0: nothing happens
    obtain ⟨hpair, hw⟩ := M.pure_eq_ok h
    rw [Prod.mk.injEq] at hpair
    right
    exact ⟨hpair.2, by rw [hw]⟩

theorem absentBranch_changed {delta : Int} {rcs : List Container} {w : World}
    {cnt : Counts} {chg : Bool} {w1 : World}
    (h : absentBranch delta rcs w = .ok (cnt, chg) w1) : chg = true := by
  unfold absentBranch at h
  obtain ⟨_, wa, _, h⟩ := M.bind_eq_ok h
  obtain ⟨_, wb, _, h⟩ := M.bind_eq_ok h
  obtain ⟨details, wc, _, h⟩ := M.bind_eq_ok h
  obtain ⟨_, wd, _, h⟩ := M.bind_eq_ok h
  obtain ⟨hpair, _⟩ := M.pure_eq_ok h
  simpa using congrArg Prod.snd hpair

theorem stopBranch_changed {delta : Int} {rcs : List Container} {w : World}
    {cnt : Counts} {chg : Bool} {w1 : World}
    (h : stopBranch delta rcs w = .ok (cnt, chg) w1) : chg = true := by
  unfold stopBranch at h
  obtain ⟨_, wa, _, h⟩ := M.bind_eq_ok h
  obtain ⟨_, wb, _, h⟩ := M.bind_eq_ok h
  obtain ⟨details, wc, _, h⟩ := M.bind_eq_ok h
  obtain ⟨hpair, _⟩ := M.pure_eq_ok h
  simpa using congrArg Prod.snd hpair

theorem killBranch_changed {delta : Int} {rcs : List Container} {w : World}
    {cnt : Counts} {chg : Bool} {w1 : World}
    (h : killBranch delta rcs w = .ok (cnt, chg) w1) : chg = true := by
  unfold killBranch at h
  obtain ⟨_, wa, _, h⟩ := M.bind_eq_ok h
  obtain ⟨_, wb, _, h⟩ := M.bind_eq_ok h
  obtain ⟨details, wc, _, h⟩ := M.bind_eq_ok h
  obtain ⟨_, wd, _, h⟩ := M.bind_eq_ok h
  obtain ⟨hpair, _⟩ := M.pure_eq_ok h
  simpa using congrArg Prod.snd hpair

theorem restartBranch_changed {delta : Int} {rcs : List Container} {w : World}
    {cnt : Counts} {chg : Bool} {w1 : World}
    (h : restartBranch delta rcs w = .ok (cnt, chg) w1) : chg = true := by
  unfold restartBranch at h
  obtain ⟨_, wa, _, h⟩ := M.bind_eq_ok h
  obtain ⟨details, wc, _, h⟩ := M.bind_eq_ok h
  obtain ⟨hpair, _⟩ := M.pure_eq_ok h
  simpa using congrArg Prod.snd hpair

/-- Claim C1, amended: for a pass with a nonnegative desired count that
reaches the success report, changed is true iff at least one create, start,
stop, kill, restart or remove operation was actually issued during the pass
OR the target state is not present — the absent, stop, kill and restart
branches set changed unconditionally, even when the matching set is empty
and no operation is issued; in state present, changed is true exactly when
an operation was issued. -/
theorem changed_iff_operation_issued (s : Spec) (w : World) (r : Report) (w2 : World)
    (hcount : 0 ≤ s.count)
    (h : reconcile s w = .ok r w2) :
    (r.changed = true ↔ (mutCount w.trace < mutCount w2.trace ∨ s.state ≠ DState.present)) := by
  unfold reconcile at h
  obtain ⟨_, w1, hv, h⟩ := M.bind_eq_ok h
  obtain ⟨listed, wa, hl, h⟩ := M.bind_eq_ok h
  obtain ⟨rcs, wb, hm, h⟩ := M.bind_eq_ok h
  obtain ⟨out, wc, hb, h⟩ := M.bind_eq_ok h
  obtain ⟨hr, hw2⟩ := M.pure_eq_ok h
  have hw1 : w1 = w := versionCheck_eq_ok hv
  rw [hw1] at hl
  subst hw2
  subst hr
  obtain ⟨cnt, chg⟩ := out
  have hwa : mutCount wa.trace = mutCount w.trace := by
    unfold listContainers at hl
    rw [Res.ok.injEq] at hl
    rw [← hl.2]
    have h0 : mutCount [(⟨.listOp, true⟩ : Entry)] = 0 := rfl
    simp [mutCount_logE, h0]
  have hwb : mutCount wb.trace = mutCount w.trace := by
    have h1 := matchLoop_mut s.image s.command listed wa
    rw [hm] at h1
    simp only [Res.world] at h1
    rw [h1, hwa]
  have hchanged : (mkReport s (cnt, chg)).changed = chg := rfl
  rw [hchanged]
  unfold branchFor at hb
  cases hstate : s.state with
  | present =>
    simp only [hstate] at hb
    have hne : s.count - (rcs.length : Int) < 0 → rcs ≠ [] := by
      intro hd hnil
      rw [hnil] at hd
      simp at hd
      omega
    rcases presentBranch_ok hne hb with ⟨hchg, hlt⟩ | ⟨hchg, heq⟩
    · rw [hchg]
      exact iff_of_true rfl (Or.inl (by omega))
    · rw [hchg]
      refine iff_of_false (by simp) ?_
      rintro (hlt | hne2)
      · omega
      · exact hne2 rfl
  | absent =>
    simp only [hstate] at hb
    rw [absentBranch_changed hb]
    exact iff_of_true rfl (Or.inr (by simp))
  | stop =>
    simp only [hstate] at hb
    rw [stopBranch_changed hb]
    exact iff_of_true rfl (Or.inr (by simp))
  | kill =>
    simp only [hstate] at hb
    rw [killBranch_changed hb]
    exact iff_of_true rfl (Or.inr (by simp))
  | restart =>
    simp only [hstate] at hb
    rw [restartBranch_changed hb]
    exact iff_of_true rfl (Or.inr (by simp))

/-- Witness for claim C1 at a concrete input (state=absent, one matching
container): the pass issues a stop, and changed is true. -/
theorem changed_iff_operation_issued_witness :
    rAbsentOne.changed = true ↔
      (mutCount wAbsentOne.trace < mutCount wAbsentOneAfter.trace ∨
       sAbsent.state ≠ DState.present) :=
  changed_iff_operation_issued sAbsent wAbsentOne rAbsentOne wAbsentOneAfter (by decide) rfl

theorem wait_containers_clean (cs : List Container) : ∀ w : World,
    (∀ c ∈ cs, c.id ∉ w.waitValueErrs ∧ c.id ∉ w.waitFatalErrs) →
    wait_containers cs w = .ok () { w with trace := w.trace ++ waitEntriesOk cs } := by
  induction cs with
  | nil => intro w _; simp [wait_containers, M.pure, waitEntriesOk]
  | cons c rest ih =>
    intro w hclean
    obtain ⟨h1, h2⟩ := hclean c (by simp)
    rw [wait_containers_cons, if_neg h1, if_neg h2]
    have hrec := ih (logE w ⟨.waitOp c.id, true⟩) (fun a ha => hclean a (by simp [ha]))
    rw [hrec]
    simp [logE, waitEntriesOk]

theorem wait_containers_value_err (pre : List Container) (c : Container) (post : List Container) :
    ∀ w : World,
    (∀ a ∈ pre, a.id ∉ w.waitValueErrs ∧ a.id ∉ w.waitFatalErrs) →
    c.id ∈ w.waitValueErrs →
    wait_containers (pre ++ c :: post) w =
      .err (.waitValueError c.id)
        { w with trace := w.trace ++ waitEntriesOk pre ++ [⟨.waitOp c.id, false⟩] } := by
  induction pre with
  | nil =>
    intro w _ hc
    simp only [List.nil_append]
    rw [wait_containers_cons, if_pos hc]
    simp [logE, waitEntriesOk]
  | cons a rest ih =>
    intro w hclean hc
    obtain ⟨h1, h2⟩ := hclean a (by simp)
    simp only [List.cons_append]
    rw [wait_containers_cons, if_neg h1, if_neg h2]
    have hrec := ih (logE w ⟨.waitOp a.id, true⟩)
      (fun b hb => hclean b (by simp [hb])) hc
    rw [hrec]
    simp [logE, waitEntriesOk]

theorem wait_containers_fatal_err (pre : List Container) (c : Container) (post : List Container) :
    ∀ w : World,
    (∀ a ∈ pre, a.id ∉ w.waitValueErrs ∧ a.id ∉ w.waitFatalErrs) →
    c.id ∉ w.waitValueErrs →
    c.id ∈ w.waitFatalErrs →
    wait_containers (pre ++ c :: post) w =
      .err (.waitFatal c.id)
        { w with trace := w.trace ++ waitEntriesOk pre ++ [⟨.waitOp c.id, false⟩] } := by
  induction pre with
  | nil =>
    intro w _ hc1 hc2
    simp only [List.nil_append]
    rw [wait_containers_cons, if_neg hc1, if_pos hc2]
    simp [logE, waitEntriesOk]
  | cons a rest ih =>
    intro w hclean hc1 hc2
    obtain ⟨h1, h2⟩ := hclean a (by simp)
    simp only [List.cons_append]
    rw [wait_containers_cons, if_neg h1, if_neg h2]
    have hrec := ih (logE w ⟨.waitOp a.id, true⟩)
      (fun b hb => hclean b (by simp [hb])) hc1 hc2
    rw [hrec]
    simp [logE, waitEntriesOk]

/-- Claim C7, amended: in the stop+wait sub-protocol, waits are issued to
the selected entities in order only up to and including the first one whose
wait raises a value-format error; that error is tolerated (the pass
continues with a success outcome) but the remaining selected entities are
never waited on; with no scheduled error every selected entity is waited
on; and any other error class raised by a wait propagates fatally instead
of being dropped. -/
theorem wait_protocol_until_first_value_error :
    (∀ (cs : List Container) (w : World),
       (∀ c ∈ cs, c.id ∉ w.waitValueErrs ∧ c.id ∉ w.waitFatalErrs) →
       waitTolerating cs w = .ok () { w with trace := w.trace ++ waitEntriesOk cs }) ∧
    (∀ (pre : List Container) (c : Container) (post : List Container) (w : World),
       (∀ a ∈ pre, a.id ∉ w.waitValueErrs ∧ a.id ∉ w.waitFatalErrs) →
       c.id ∈ w.waitValueErrs →
       waitTolerating (pre ++ c :: post) w =
         .ok () { w with trace := w.trace ++ waitEntriesOk pre ++ [⟨.waitOp c.id, false⟩] }) ∧
    (∀ (pre : List Container) (c : Container) (post : List Container) (w : World),
       (∀ a ∈ pre, a.id ∉ w.waitValueErrs ∧ a.id ∉ w.waitFatalErrs) →
       c.id ∉ w.waitValueErrs →
       c.id ∈ w.waitFatalErrs →
       waitTolerating (pre ++ c :: post) w =
         .err (.waitFatal c.id)
           { w with trace := w.trace ++ waitEntriesOk pre ++ [⟨.waitOp c.id, false⟩] }) := by
  refine ⟨fun cs w hclean => ?_, fun pre c post w hclean hc => ?_, fun pre c post w hclean hc1 hc2 => ?_⟩
  · unfold waitTolerating
    rw [wait_containers_clean cs w hclean]
  · unfold waitTolerating
    rw [wait_containers_value_err pre c post w hclean hc]
  · unfold waitTolerating
    rw [wait_containers_fatal_err pre c post w hclean hc1 hc2]

/-- Witness for claim C7 at a concrete input: with two selected containers
and a ValueError scheduled for the first, the tolerated error ends the wait
loop after the first wait and the computation continues successfully. -/
theorem wait_protocol_until_first_value_error_witness :
    waitTolerating [⟨1, "img", "", false⟩, ⟨2, "img", "", false⟩] wWaitSkip =
      .ok ()
        { wWaitSkip with
            trace := wWaitSkip.trace ++ waitEntriesOk [] ++ [⟨.waitOp 1, false⟩] } :=
  wait_protocol_until_first_value_error.2.1 [] ⟨1, "img", "", false⟩
    [⟨2, "img", "", false⟩] wWaitSkip (by simp) (by decide)

theorem hbFind_nomatch {s : List Char} (h : ¬ hasSuffix2 s) :
    hbFind hbSuffixes s = .error .invalidFormat := by
  simp only [hasSuffix2, List.mem_cons, List.not_mem_nil, or_false, not_or] at h
  obtain ⟨h1, h2, h3, h4, h5⟩ := h
  simp only [hbFind, hbSuffixes]
  rw [if_neg h1, if_neg h2, if_neg h3, if_neg h4, if_neg h5]

theorem hbFind_suffix2_unparseable {s : List Char} (h : hasSuffix2 s)
    (hp : pyIntParse (pyInit s 2) = none) :
    hbFind hbSuffixes s = .error .valueError := by
  simp only [hasSuffix2, List.mem_cons, List.not_mem_nil, or_false] at h
  rcases h with h | h | h | h | h
  · simp only [hbFind, hbSuffixes]
    rw [if_pos h]
    simp [hp]
  · simp only [hbFind, hbSuffixes]
    rw [if_neg (by rw [h]; decide), if_pos h]
    simp [hp]
  · simp only [hbFind, hbSuffixes]
    rw [if_neg (by rw [h]; decide), if_neg (by rw [h]; decide), if_pos h]
    simp [hp]
  · simp only [hbFind, hbSuffixes]
    rw [if_neg (by rw [h]; decide), if_neg (by rw [h]; decide), if_neg (by rw [h]; decide),
        if_pos h]
    simp [hp]
  · simp only [hbFind, hbSuffixes]
    rw [if_neg (by rw [h]; decide), if_neg (by rw [h]; decide), if_neg (by rw [h]; decide),
        if_neg (by rw [h]; decide), if_pos h]
    simp [hp]

/-- Claim C8, amended: a size string fails the normalizer — via the
formatted conversion error, an uncaught int() ValueError, or an uncaught
IndexError — whenever its suffix is unrecognized, or its suffix is one of
KB..PB with a prefix not parseable as an integer, or its suffix is B with a
prefix not parseable as an integer, EXCEPT in the case the counterexample
exhibits: a string ending in B whose second-to-last character is a digit is
accepted with only the B stripped, even when the whole prefix is not a
valid numeral. -/
theorem invalid_size_strings_fail (s : List Char)
    (h : invalidSizeClaim s)
    (hhole : ¬ (hasSuffixB s ∧ ¬ hasSuffix2 s ∧ digitBeforeB s)) :
    ∃ e, human_to_bytes (.strVal s) = .error e := by
  rcases hrev : s.reverse with _ | ⟨c1, t⟩
  · exact ⟨.indexError, by simp [human_to_bytes, hrev]⟩
  · rcases t with _ | ⟨c2, r⟩
    · by_cases hB : c1 = 'B'
      · exact ⟨.indexError, by simp [human_to_bytes, hrev, hB]⟩
      · have hns : ¬ hasSuffix2 s := by
          have hp2 : pyTail s 2 = [c1] := by simp [pyTail, hrev]
          simp [hasSuffix2, hp2]
        exact ⟨.invalidFormat, by simp [human_to_bytes, hrev, hB, hbFind_nomatch hns]⟩
    · have hpt2 : pyTail s 2 = [c2, c1] := by simp [pyTail, hrev]
      have hpt1 : pyTail s 1 = [c1] := by simp [pyTail, hrev]
      by_cases hs2 : hasSuffix2 s
      · have hparse : pyIntParse (pyInit s 2) = none := by
          rcases h with ⟨hn, _⟩ | ⟨_, hp⟩ | ⟨hn, _, _⟩
          · exact absurd hs2 hn
          · exact hp
          · exact absurd hs2 hn
        have hmem := hs2
        simp only [hasSuffix2, hpt2, List.mem_cons, List.not_mem_nil, or_false] at hmem
        have hc1 : c1 = 'B' := by
          rcases hmem with hm | hm | hm | hm | hm <;>
            · rw [List.cons.injEq, List.cons.injEq] at hm
              exact hm.2.1
        have hdig : c2.isDigit = false := by
          rcases hmem with hm | hm | hm | hm | hm <;>
            · rw [List.cons.injEq] at hm
              rw [hm.1]
              decide
        exact ⟨.valueError, by
          simp [human_to_bytes, hrev, hc1, hdig, hbFind_suffix2_unparseable hs2 hparse]⟩
      · by_cases hB : c1 = 'B'
        · have hsB : hasSuffixB s := by simp [hasSuffixB, hpt1, hB]
          have hnd : ¬ digitBeforeB s := fun hd => hhole ⟨hsB, hs2, hd⟩
          have hdig : c2.isDigit = false := by
            cases hdd : c2.isDigit with
            | true => exact absurd (by simp [digitBeforeB, hrev, hdd]) hnd
            | false => rfl
          exact ⟨.invalidFormat, by
            simp [human_to_bytes, hrev, hB, hdig, hbFind_nomatch hs2]⟩
        · exact ⟨.invalidFormat, by simp [human_to_bytes, hrev, hB, hbFind_nomatch hs2]⟩

/-- Witness for claim C8 at the concrete input "10XB" (unknown suffix XB):
the normalizer fails. -/
theorem invalid_size_strings_fail_witness :
    ∃ e, human_to_bytes (.strVal ['1','0','X','B']) = .error e :=
  invalid_size_strings_fail ['1','0','X','B'] (by decide) (by decide)

theorem pySplitChar_ne_nil (sep : Char) (s : List Char) : pySplitChar sep s ≠ [] := by
  induction s with
  | nil => simp [pySplitChar]
  | cons c rest ih =>
    by_cases hc : c = sep
    · simp [pySplitChar, hc]
    · simp only [pySplitChar, if_neg hc]
      rcases hsplit : pySplitChar sep rest with _ | ⟨g, gs⟩
      · exact absurd hsplit ih
      · simp

theorem imageName_eq_specNameComponent (s : List Char) :
    imageName s = specNameComponent s := by
  induction s with
  | nil => rfl
  | cons c rest ih =>
    by_cases hc : c = ':'
    · simp [imageName, pySplitChar, hc, specNameComponent]
    · have hb : (c == ':') = false := by simp [hc]
      rcases hsplit : pySplitChar ':' rest with _ | ⟨g, gs⟩
      · exact absurd hsplit (pySplitChar_ne_nil ':' rest)
      · have hg : g = specNameComponent rest := by
          have hgn : imageName rest = g := by simp [imageName, hsplit]
          rw [← hgn, ih]
        simp [imageName, pySplitChar, hc, hsplit, specNameComponent, hb, hg]

theorem pySplitChar_cons_ne (sep c : Char) (l : List Char) (hc : c ≠ sep) :
    pySplitChar sep (c :: l) =
      match pySplitChar sep l with
      | [] => [[c]]
      | g :: gs => (c :: g) :: gs := by
  simp [pySplitChar, hc]

theorem pySplitChar_append_sep (nm tag : List Char) (h : ':' ∉ nm) :
    pySplitChar ':' (nm ++ ':' :: tag) = nm :: pySplitChar ':' tag := by
  induction nm with
  | nil => simp [pySplitChar]
  | cons c rest ih =>
    have hc : c ≠ ':' := fun he => h (by simp [he])
    have hrest : ':' ∉ rest := fun he => h (by simp [he])
    rw [List.cons_append, pySplitChar_cons_ne ':' c _ hc, ih hrest]

/-- Claim C9: an entity matches the desired spec iff the name component of
its image reference — everything before the first colon, so tags are
ignored — equals the name component of the image of the spec, and, when a
non-empty command was specified, the trimmed command strings are equal; the
name component of name:tag is the bare name whenever the name holds no
colon, and in particular an entity tagged myimage:v1 matches a spec of
myimage:v2. -/
theorem matching_ignores_tag :
    (∀ (img : String) (cmd : Option String) (c : Container),
       containerMatches img cmd c = true ↔
         (specNameComponent c.image.data = specNameComponent img.data ∧
          ∀ cs : String, cmd = some cs → cs ≠ "" → pyStrip c.command.data = pyStrip cs.data)) ∧
    (∀ (nm tag : List Char), ':' ∉ nm → imageName (nm ++ ':' :: tag) = nm) ∧
    containerMatches ("myimage:v2") none ⟨9, "myimage:v1", "", true⟩ = true := by
  refine ⟨?_, ?_, by decide⟩
  · intro img cmd c
    unfold containerMatches
    rw [imageName_eq_specNameComponent c.image.data, imageName_eq_specNameComponent img.data]
    split_ifs with hname
    · cases cmd with
      | none =>
        constructor
        · intro _
          exact ⟨hname, fun cs hcs => Option.noConfusion hcs⟩
        · intro _
          rfl
      | some cstr =>
        by_cases hempty : cstr = ""
        · constructor
          · intro _
            refine ⟨hname, fun cs hcs hne => ?_⟩
            injection hcs with hcc
            exact absurd (by rw [← hcc, hempty]) hne
          · intro _
            show (if cstr = "" then true else _) = true
            rw [if_pos hempty]
        · constructor
          · intro hmatch
            refine ⟨hname, fun cs hcs hne => ?_⟩
            injection hcs with hcc
            rw [← hcc]
            have hmatch2 : decide (pyStrip c.command.data = pyStrip cstr.data) = true := by
              have hred : (if cstr = "" then true
                  else decide (pyStrip c.command.data = pyStrip cstr.data)) = true := hmatch
              rwa [if_neg hempty] at hred
            exact of_decide_eq_true hmatch2
          · rintro ⟨_, hall⟩
            show (if cstr = "" then true else _) = true
            rw [if_neg hempty]
            exact decide_eq_true (hall cstr rfl hempty)
    · refine iff_of_false (by simp) ?_
      rintro ⟨hn, _⟩
      exact hname hn
  · intro nm tag h
    simp [imageName, pySplitChar_append_sep nm tag h]

/-- Witness for claim C9 at a concrete input: the name component of a
tagged reference my:v1 — with the colon-free name my — is the bare name. -/
theorem matching_ignores_tag_witness :
    imageName (['m','y'] ++ ':' :: ['v','1']) = ['m','y'] :=
  matching_ignores_tag.2.1 ['m','y'] ['v','1'] (by decide)

/-- Claim C3: the size normalizer is claimed to return the integer n for a
numeral followed by suffix B; evaluating _human_to_bytes at the failing
input "10B" shows the code instead returns the string "10" (number[:-1]
without an int() conversion), which is not the integer 10. -/
theorem human_to_bytes_b_returns_string :
    human_to_bytes (.strVal ['1','0','B']) = .ok (.strVal ['1','0']) ∧
    HBVal.strVal ['1','0'] ≠ HBVal.intVal 10 :=
  ⟨rfl, by decide⟩

/-- Claim C8, counterexample: the string "x1B" has suffix B and a numeric
prefix that is not parseable as an integer, so the claim requires a failure;
the code accepts it and returns the string "x1", because the B branch only
checks that the single character before the B is a digit. -/
theorem nonnumeric_b_prefix_accepted :
    invalidSizeClaim ['x','1','B'] ∧
    human_to_bytes (.strVal ['x','1','B']) = .ok (.strVal ['x','1']) :=
  ⟨by decide, rfl⟩

/-- Claim C2: evaluated at the failing input (state=absent, count=1, one
matching running container), the pass stops and waits on the container but
issues no remove at all — the inspected slice running_containers[0:delta]
is empty because delta = 1 - 1 = 0 — so the container survives the pass
(merely stopped) and even stopped=0 is reported. -/
theorem absent_pass_removes_nothing :
    reportOf (reconcile sAbsent wAbsentOne) = some rAbsentOne ∧
    Res.world (reconcile sAbsent wAbsentOne) = wAbsentOneAfter ∧
    countOp (fun o => match o with | .removeOp _ => true | _ => false) wAbsentOneAfter.trace = 0 ∧
    containerMatches sAbsent.image sAbsent.command ⟨1, "img", "", true⟩ = true :=
  ⟨rfl, rfl, by decide, by decide⟩

/-- Claim C1, counterexample: a pass with state=absent against an empty
matching set issues no create, start, stop, kill, restart or remove
operation (the trace holds only the read-only listing), yet reports
changed=true, refuting both the claimed equivalence and the claimed
changed=false for an empty matching set with nothing to create. -/
theorem changed_true_without_issued_ops :
    reportOf (reconcile sAbsent wAbsentNone) = some rAbsentOne ∧
    rAbsentOne.changed = true ∧
    (Res.world (reconcile sAbsent wAbsentNone)).trace = [⟨.listOp, true⟩] ∧
    mutCount (Res.world (reconcile sAbsent wAbsentNone)).trace = 0 :=
  ⟨rfl, rfl, rfl, by decide⟩

/-- Claim C4: reconciling state=present, count=2 against five matching
running containers stops, waits on, inspects and removes exactly the first
three in runtime listing order (ids 1, 2, 3), leaves the remaining two
untouched and still running, and reports changed=true, stopped=3. -/
theorem present_scale_down_first_three :
    reportOf (reconcile sScale2 wScale5) = some rScale2 ∧
    (Res.world (reconcile sScale2 wScale5)).containers =
      [⟨4, "img:v1", "", true⟩, ⟨5, "img:v1", "", true⟩] ∧
    (Res.world (reconcile sScale2 wScale5)).trace =
      [⟨.listOp, true⟩, ⟨.inspectOp 1, true⟩, ⟨.inspectOp 2, true⟩, ⟨.inspectOp 3, true⟩,
       ⟨.inspectOp 4, true⟩, ⟨.inspectOp 5, true⟩, ⟨.stopOp 1, true⟩, ⟨.stopOp 2, true⟩,
       ⟨.stopOp 3, true⟩, ⟨.waitOp 1, true⟩, ⟨.waitOp 2, true⟩, ⟨.waitOp 3, true⟩,
       ⟨.inspectOp 1, true⟩, ⟨.inspectOp 2, true⟩, ⟨.inspectOp 3, true⟩,
       ⟨.removeOp 1, true⟩, ⟨.removeOp 2, true⟩, ⟨.removeOp 3, true⟩] :=
  ⟨rfl, rfl, rfl⟩

/-- Claim C5: reconciling state=present, count=3 against zero matching
containers creates exactly three containers from the spec, starts each of
them with the LXC options and binds of the spec, and reports changed=true,
started=3, stopped=0; the final runtime holds the three new running
containers. -/
theorem present_scale_up_three :
    reportOf (reconcile sCreate3 wCreate3) = some rCreate3 ∧
    (Res.world (reconcile sCreate3 wCreate3)).containers =
      [⟨0, "img", "run.sh", true⟩, ⟨1, "img", "run.sh", true⟩, ⟨2, "img", "run.sh", true⟩] ∧
    (Res.world (reconcile sCreate3 wCreate3)).trace =
      [⟨.listOp, true⟩,
       ⟨.createOp ("img") (some ("run.sh")), true⟩,
       ⟨.createOp ("img") (some ("run.sh")), true⟩,
       ⟨.createOp ("img") (some ("run.sh")), true⟩,
       ⟨.startOp 0 (some [("lxc.aa_profile", "unconfined")]) (some [("/h", "/c")]), true⟩,
       ⟨.startOp 1 (some [("lxc.aa_profile", "unconfined")]) (some [("/h", "/c")]), true⟩,
       ⟨.startOp 2 (some [("lxc.aa_profile", "unconfined")]) (some [("/h", "/c")]), true⟩,
       ⟨.inspectOp 0, true⟩, ⟨.inspectOp 1, true⟩, ⟨.inspectOp 2, true⟩] :=
  ⟨rfl, rfl, rfl⟩

/-- Claim C6: when the first create fails because the image is missing, the
pass issues exactly one pull and retries the creation exactly once — on
success (image obtainable) it reports changed=true with the container
started; when the retried create fails again the pass aborts with the
create error surfaced (modelling the module-level failure report) and no
report — in particular no started count — is produced. -/
theorem create_retry_pull_once :
    (reportOf (reconcile sRetry wRetryOk) = some rRetryOk ∧
     (Res.world (reconcile sRetry wRetryOk)).trace =
       [⟨.listOp, true⟩, ⟨.createOp ("img") none, false⟩, ⟨.pullOp ("img"), true⟩,
        ⟨.createOp ("img") none, true⟩, ⟨.startOp 0 none none, true⟩, ⟨.inspectOp 0, true⟩]) ∧
    (errOf (reconcile sRetry wRetryFail) = some .createError ∧
     reportOf (reconcile sRetry wRetryFail) = none ∧
     (Res.world (reconcile sRetry wRetryFail)).trace =
       [⟨.listOp, true⟩, ⟨.createOp ("img") none, false⟩, ⟨.pullOp ("img"), true⟩,
        ⟨.createOp ("img") none, false⟩]) :=
  ⟨⟨rfl, rfl⟩, ⟨rfl, rfl, rfl⟩⟩

/-- Claim C7, counterexample: with two selected containers where the wait on
the first raises a ValueError, the tolerated error abandons the rest of the
wait loop — no wait is ever issued to the second selected (matching)
container — while the pass still continues to a success report; this
refutes the claim that a wait is issued to every selected entity. -/
theorem wait_not_issued_to_every_entity :
    reportOf (reconcile sStopTwo wWaitSkip) = some rWaitSkip ∧
    (Res.world (reconcile sStopTwo wWaitSkip)).trace =
      [⟨.listOp, true⟩, ⟨.inspectOp 1, true⟩, ⟨.inspectOp 2, true⟩,
       ⟨.stopOp 1, true⟩, ⟨.stopOp 2, true⟩, ⟨.waitOp 1, false⟩, ⟨.inspectOp 1, true⟩] ∧
    countOp (fun o => match o with | .waitOp i => i == 2 | _ => false)
      (Res.world (reconcile sStopTwo wWaitSkip)).trace = 0 ∧
    containerMatches sStopTwo.image sStopTwo.command ⟨2, "img", "", true⟩ = true :=
  ⟨rfl, rfl, by decide, by decide⟩

end DockerAnsible
